import Mathlib

/-!
Verification development for the Pikax batch ID resolver
(`gui/lib/pikax/api/models.py`) and the web-login cascade
(`pikax/api/webclient.py`), shallowly embedded in Lean 4.
-/

namespace Pikax

/-! ## Embedding of `gui/lib/pikax/api/models.py` -/

/-- Outcome of `Artwork.config()` for one item id: it either returns
normally, raises an `ArtworkError`, or raises some other exception
(for instance the `ReqException` its doc comment mentions). -/
inductive ConfigOutcome where
  | ok
  | artworkError
  | otherExn
deriving DecidableEq, Repr

/-- `Artwork.__init__` stores the given id in `self.id`. -/
structure Artwork where
  id : Nat
deriving DecidableEq, Repr

/-- Result of evaluating `cls(itemid)`: a constructed artwork, an
`ArtworkError`, or another exception escaping the constructor. -/
inductive ConstructResult where
  | ok (a : Artwork)
  | artworkError
  | otherExn
deriving DecidableEq, Repr

/-- `cls(itemid)`: `Artwork.__init__` sets `self.id = artwork_id` and then
calls `self.config()`, whose outcome is given by `config`. -/
def construct (config : Nat → ConfigOutcome) (itemid : Nat) : ConstructResult :=
  match config itemid with
  | ConfigOutcome.ok => ConstructResult.ok ⟨itemid⟩
  | ConfigOutcome.artworkError => ConstructResult.artworkError
  | ConfigOutcome.otherExn => ConstructResult.otherExn

/-- The loop of `BaseIDProcessor._general_processor`: consume completions
one by one (`pool.imap_unordered` yields them in completion order), where
`process_item` appends to `successes` on normal construction and appends
the id to `fails` on `ArtworkError`; after each consumed completion the
main thread calls `util.print_progress(index + 1, total, ...)`, recorded
here as a `(index + 1, total)` pair.  Any exception other than
`ArtworkError` escapes `process_item` and is re-raised by the iteration,
aborting the whole batch (`Except.error`). -/
def processLoop (config : Nat → ConfigOutcome) (total : Nat) :
    List Nat → Nat → List Artwork → List Nat → List (Nat × Nat) →
    Except Unit (List Artwork × List Nat × List (Nat × Nat))
  | [], _, successes, fails, progress => Except.ok (successes, fails, progress)
  | itemid :: rest, done, successes, fails, progress =>
    match construct config itemid with
    | ConstructResult.ok a =>
        processLoop config total rest (done + 1) (successes ++ [a]) fails
          (progress ++ [(done + 1, total)])
    | ConstructResult.artworkError =>
        processLoop config total rest (done + 1) successes (fails ++ [itemid])
          (progress ++ [(done + 1, total)])
    | ConstructResult.otherExn => Except.error ()

/-- `BaseIDProcessor._general_processor(cls, item_ids)`:
`total = len(item_ids)`, `successes = []`, `fails = []`, and the pool's
completions arrive in some order `completionOrder` (a permutation of
`item_ids`).  Returns `(successes, fails)` together with the recorded
progress calls, or aborts if a non-`ArtworkError` exception is raised. -/
def general_processor (config : Nat → ConfigOutcome)
    (item_ids completionOrder : List Nat) :
    Except Unit (List Artwork × List Nat × List (Nat × Nat)) :=
  processLoop config item_ids.length completionOrder 0 [] [] []

/-- The sequence of progress pairs produced by `n` consumed completions
when `done` items were consumed before: `(done+1, total), ..., (done+n, total)`. -/
def progressTrace (done total : Nat) : Nat → List (Nat × Nat)
  | 0 => []
  | n + 1 => (done + 1, total) :: progressTrace (done + 1) total n

/-! ### Embedding of `BaseIDProcessor.process` (and the parts of the
`params` module it depends on, which is not part of the sources) -/

/-- Modelled from the spec: the `params` module is not among the sources;
the spec only says artifact construction is "delegated to an external
collaborator (a constructor capability keyed by a 'process type')".  The
repository's `ProcessType` enum has the members `MANGA` and `ILLUST`
keyed in `type_to_function`, plus at least one further member (the gif
download process type) that is not. -/
inductive ProcessType where
  | manga
  | illust
  | gif
deriving DecidableEq, Repr

/-- A Python value passed as `process_type`: either an actual member of
the `ProcessType` enum, or any other value (wrong type / not a member). -/
inductive ProcessArg where
  | valid (pt : ProcessType)
  | invalid
deriving DecidableEq, Repr

/-- Modelled from the spec: `params.ProcessType.is_valid(value)` is not
among the sources; it is the enum-membership test (`isinstance(value, cls)`),
true exactly on members of the enum. -/
def ProcessType.is_valid : ProcessArg → Bool
  | ProcessArg.valid _ => true
  | ProcessArg.invalid => false

/-- A `BaseIDProcessor` instance: its two bound methods used as values in
`self.type_to_function`. -/
structure BaseIDProcessor where
  process_illusts : List Nat → List Artwork × List Nat
  process_mangas : List Nat → List Artwork × List Nat

/-- The dictionary built in `BaseIDProcessor.__init__`: it has exactly the
keys `ProcessType.MANGA` and `ProcessType.ILLUST`; looking up any other
member is a missing key (`none`, i.e. a Python `KeyError`). -/
def type_to_function (p : BaseIDProcessor) :
    ProcessType → Option (List Nat → List Artwork × List Nat)
  | ProcessType.manga => some p.process_mangas
  | ProcessType.illust => some p.process_illusts
  | ProcessType.gif => none

/-- Outcome of `BaseIDProcessor.process`: a normal return, a raised
`ProcessError`, or a raised `KeyError` from the dictionary lookup. -/
inductive ProcessOutcome where
  | ok (res : List Artwork × List Nat)
  | processError
  | keyError

/-- `BaseIDProcessor.process(ids, process_type)`: raise `ProcessError` if
`ProcessType.is_valid` fails, otherwise perform the unguarded lookup
`self.type_to_function[process_type]` and call the result. -/
def process (p : BaseIDProcessor) (ids : List Nat) (process_type : ProcessArg) :
    ProcessOutcome :=
  if ProcessType.is_valid process_type = false then ProcessOutcome.processError
  else
    match process_type with
    | ProcessArg.valid pt =>
        match type_to_function p pt with
        | some f => ProcessOutcome.ok (f ids)
        | none => ProcessOutcome.keyError
    | ProcessArg.invalid => ProcessOutcome.keyError

/-! ## Embedding of `pikax/api/webclient.py` -/

/-- A `requests` cookie jar, as an association list in insertion order. -/
abbrev Cookies := List (String × String)

/-- `jar[name] = value`: overwrite an existing cookie of that name in
place, otherwise append a new entry. -/
def setCookie (cs : Cookies) (name value : String) : Cookies :=
  if cs.any (fun p => p.1 = name) then
    cs.map (fun p => if p.1 = name then (name, value) else p)
  else cs ++ [(name, value)]

/-- Set every cookie of `new` in the jar `cs`, in order. -/
def setCookieList (cs : Cookies) (new : Cookies) : Cookies :=
  new.foldl (fun acc p => setCookie acc p.1 p.2) cs

/-- Contents of the local cookies file: a pickled cookie jar, or garbage.
`pickle.load` on garbage bytes raises either `pickle.UnpicklingError`
(`garbage`: e.g. an invalid leading opcode) or some other exception
(`garbageOther`: e.g. `EOFError` for an empty or truncated file,
`AttributeError`/`ImportError` for a pickle naming a missing class) —
the source catches only the former. -/
inductive FileContent where
  | cookies (cs : Cookies)
  | garbage
  | garbageOther
deriving DecidableEq, Repr

/-- Observable events of a login run, in chronological order. -/
inductive Event where
  | accountLogin
  | cookiesLogin
  | localCookiesLogin
  | userCookiesLogin
  | checkIsLogged (result : Bool)
  | saveCookies
  | removeFile
deriving DecidableEq, Repr

/-- The mutable state a login run touches: the session's cookie jar, the
local cookies file, and the event trace recorded so far. -/
structure World where
  sessionCookies : Cookies
  cookiesFile : Option FileContent
  trace : List Event

/-- Result of one of the `_login`-family methods: normal return, a raised
`LoginError` with its message, blocking forever on exhausted user input,
or an exception other than `LoginError` propagating uncaught (e.g. the
`EOFError` that `pickle.load` raises on a truncated file, which no
`except` clause in the cascade catches). -/
inductive LoginResult where
  | ok
  | err (msg : String)
  | blocked
  | exn
deriving DecidableEq, Repr

/-- Behaviour of the remote service during the run: whether the login page
yields a post key, whether the login POST succeeds, which cookies that
POST sets on the session, and the verdict of the status endpoint as a
function of the current session cookies. -/
structure Env where
  postkey : Option String
  loginPostOk : Bool
  loginSetCookies : Cookies
  checkLogged : Cookies → Bool

/-- Append one event to the world's trace. -/
def logEvent (e : Event) (w : World) : World :=
  { w with trace := w.trace ++ [e] }

/-- `BaseClient._check_is_logged`: query the status endpoint with the
current session cookies and return the `is_logged_in` flag. -/
def check_is_logged (env : Env) (w : World) : Bool × World :=
  let b := env.checkLogged w.sessionCookies
  (b, logEvent (Event.checkIsLogged b) w)

/-- `BaseClient._save_cookies`: pickle the current session cookies to the
cookies file, overwriting whatever was there. -/
def save_cookies (w : World) : World :=
  { w with cookiesFile := some (FileContent.cookies w.sessionCookies),
           trace := w.trace ++ [Event.saveCookies] }

/-- `AccountClient._login(username, password)`: fetch a post key (raising
`LoginError` if absent), POST the credentials (raising `LoginError` on a
`ReqException`), then verify with `_check_is_logged`; on success save the
cookies, otherwise raise `LoginError`. -/
def account_login (env : Env) (w : World) : LoginResult × World :=
  let w := logEvent Event.accountLogin w
  match env.postkey with
  | none => (LoginResult.err "Failed to find post key", w)
  | some _ =>
    if env.loginPostOk then
      let w := { w with sessionCookies := setCookieList w.sessionCookies env.loginSetCookies }
      let p := check_is_logged env w
      if p.1 then (LoginResult.ok, save_cookies p.2)
      else (LoginResult.err "Login Request is not accepted", p.2)
    else (LoginResult.err "Failed to send login request", w)

/-- `CookiesClient._local_cookies_login`: raise if the file is absent;
unpickle it — on `UnpicklingError` delete the file and raise
`LoginError`, but any other unpickling exception escapes the
`except pickle.UnpicklingError` clause uncaught, leaving the file in
place; on a successful load set the session cookies and verify; on a
negative verdict delete the outdated file and raise. -/
def local_cookies_login (env : Env) (w : World) : LoginResult × World :=
  let w := logEvent Event.localCookiesLogin w
  match w.cookiesFile with
  | none => (LoginResult.err "Local Cookies file not found", w)
  | some FileContent.garbage =>
      (LoginResult.err "Login with cookies failed",
        logEvent Event.removeFile { w with cookiesFile := none })
  | some FileContent.garbageOther => (LoginResult.exn, w)
  | some (FileContent.cookies cs) =>
      let w := { w with sessionCookies := cs }
      let p := check_is_logged env w
      if p.1 then (LoginResult.ok, p.2)
      else (LoginResult.err "Login with cookies failed",
        logEvent Event.removeFile { p.2 with cookiesFile := none })

/-- Python `str.lower()` (over the ASCII alphabet the prompts use). -/
def pyLower (s : String) : String :=
  ⟨s.data.map Char.toLower⟩

/-- Python `str.strip()`: drop leading and trailing whitespace. -/
def pyStrip (s : String) : String :=
  ⟨((s.data.dropWhile Char.isWhitespace).reverse.dropWhile
      Char.isWhitespace).reverse⟩

/-- Split a character list at every occurrence of `sep` (Python
`str.split(sep)` semantics: `n` separators yield `n + 1` pieces). -/
def splitListChar (sep : Char) : List Char → List (List Char)
  | [] => [[]]
  | c :: rest =>
    if c = sep then [] :: splitListChar sep rest
    else
      match splitListChar sep rest with
      | [] => [[c]]
      | piece :: more => (c :: piece) :: more

/-- Python `s.split(sep)` for a one-character separator. -/
def pySplit (sep : Char) (s : String) : List String :=
  (splitListChar sep s.data).map (fun l => ⟨l⟩)

/-- Split at the first occurrence of `sep` only; `none` when `sep` does
not occur. -/
def splitFirstAux (sep : Char) : List Char → Option (List Char × List Char)
  | [] => none
  | c :: rest =>
    if c = sep then some ([], rest)
    else
      match splitFirstAux sep rest with
      | none => none
      | some (l, r) => some (c :: l, r)

/-- `"piece".split('=', 1)`: `none` when no `'='` occurs (the tuple
unpacking raises `ValueError`), otherwise the parts before and after the
first `'='`. -/
def splitEq1 (s : String) : Option (String × String) :=
  match splitFirstAux '=' s.data with
  | none => none
  | some (l, r) => some (⟨l⟩, ⟨r⟩)

/-- The add-new-cookies loop of `_change_to_new_cookies`: set each
`key=value` piece in turn; a piece with no `'='` raises `ValueError`
there, leaving the cookies set so far in the jar (`false` flags the
raised error). -/
def addNewCookies : List String → Cookies → Cookies × Bool
  | [], cs => (cs, true)
  | piece :: rest, cs =>
    match splitEq1 piece with
    | none => (cs, false)
    | some (n, v) => addNewCookies rest (setCookie cs n v)

/-- `CookiesClient._change_to_new_cookies(user_cookies)`: first delete
every existing session cookie, then add each semicolon-separated piece;
a malformed piece turns the `ValueError` into a raised `LoginError`
(`false`), with the partially rebuilt jar left in the session. -/
def change_to_new_cookies (user_cookies : String) (_session : Cookies) :
    Cookies × Bool :=
  addNewCookies (pySplit ';' user_cookies) []

/-- The prompt loop of `CookiesClient._user_cookies_login`, consuming the
stream of user input lines: `n`/`no` breaks out (raising `LoginError`
after the loop); any other non-`y`/`yes` answer re-prompts; on consent the
next line is the cookie string, which replaces the session cookies and is
verified, saving and returning on success and re-prompting otherwise.
Exhausted input blocks forever. -/
def user_cookies_loop (env : Env) : List String → World → LoginResult × World
  | [], w => (LoginResult.blocked, w)
  | answer :: rest, w =>
    if pyLower (pyStrip answer) = "n" ∨ pyLower (pyStrip answer) = "no" then
      (LoginResult.err "Failed login with user cookies", w)
    else if ¬ (pyLower (pyStrip answer) = "y" ∨ pyLower (pyStrip answer) = "yes") then
      user_cookies_loop env rest w
    else
      match rest with
      | [] => (LoginResult.blocked, w)
      | cookieStr :: rest2 =>
        match change_to_new_cookies cookieStr w.sessionCookies with
        | (cs, true) =>
          match check_is_logged env { w with sessionCookies := cs } with
          | (true, w2) => (LoginResult.ok, save_cookies w2)
          | (false, w2) => user_cookies_loop env rest2 w2
        | (cs, false) =>
          user_cookies_loop env rest2 { w with sessionCookies := cs }

/-- `CookiesClient._user_cookies_login`: print the prompt and run the
input loop. -/
def user_cookies_login (env : Env) (inputs : List String) (w : World) :
    LoginResult × World :=
  user_cookies_loop env inputs (logEvent Event.userCookiesLogin w)

/-- `CookiesClient._login`: try `_local_cookies_login`; on `LoginError`
try `_user_cookies_login`; on `LoginError` again raise
`LoginError('Cookies Login failed')`.  The `except LoginError` clauses
catch only `LoginError`: any other exception propagates. -/
def cookies_login (env : Env) (inputs : List String) (w : World) :
    LoginResult × World :=
  let w := logEvent Event.cookiesLogin w
  match local_cookies_login env w with
  | (LoginResult.ok, w) => (LoginResult.ok, w)
  | (LoginResult.blocked, w) => (LoginResult.blocked, w)
  | (LoginResult.exn, w) => (LoginResult.exn, w)
  | (LoginResult.err _, w) =>
    match user_cookies_login env inputs w with
    | (LoginResult.ok, w) => (LoginResult.ok, w)
    | (LoginResult.blocked, w) => (LoginResult.blocked, w)
    | (LoginResult.exn, w) => (LoginResult.exn, w)
    | (LoginResult.err _, w) => (LoginResult.err "Cookies Login failed", w)

/-- `WebAPIClient.__init__`: try `AccountClient._login`; on `LoginError`
try `CookiesClient._login`; on `LoginError` again raise
`LoginError('Web client login failed')`.  The `except LoginError`
clauses catch only `LoginError`: any other exception propagates. -/
def web_api_client_init (env : Env) (inputs : List String) (w : World) :
    LoginResult × World :=
  match account_login env w with
  | (LoginResult.ok, w) => (LoginResult.ok, w)
  | (LoginResult.blocked, w) => (LoginResult.blocked, w)
  | (LoginResult.exn, w) => (LoginResult.exn, w)
  | (LoginResult.err _, w) =>
    match cookies_login env inputs w with
    | (LoginResult.ok, w) => (LoginResult.ok, w)
    | (LoginResult.blocked, w) => (LoginResult.blocked, w)
    | (LoginResult.exn, w) => (LoginResult.exn, w)
    | (LoginResult.err _, w) => (LoginResult.err "Web client login failed", w)

/-! ### The save-only-after-verification trace predicate -/

/-- One trace step is acceptable when it only persists cookies right after
a positive verification: a `saveCookies` event must be immediately
preceded by `checkIsLogged true`. -/
def saveStepOk (prev : Option Event) (e : Event) : Bool :=
  if e = Event.saveCookies then
    if prev = some (Event.checkIsLogged true) then true else false
  else true

/-- Scan of the trace carrying the previous event. -/
def savesGuardedFrom (prev : Option Event) : List Event → Bool
  | [] => true
  | e :: rest => saveStepOk prev e && savesGuardedFrom (some e) rest

/-- Every `saveCookies` event in the trace is immediately preceded by a
`checkIsLogged true` event. -/
def savesGuarded (t : List Event) : Bool :=
  savesGuardedFrom none t

/-- The last event of `t`, falling back to `prev` when `t` is empty. -/
def lastEvent (prev : Option Event) : List Event → Option Event
  | [] => prev
  | e :: rest => lastEvent (some e) rest

/-! ### Sample inputs used to instantiate the theorems -/

/-- Sample constructor outcomes: id 2 raises `ArtworkError`, others build. -/
def sampleConfig : Nat → ConfigOutcome := fun i =>
  if i = 2 then ConfigOutcome.artworkError else ConfigOutcome.ok

/-- Sample constructor outcomes: id 2 raises a non-`ArtworkError` exception. -/
def sampleConfigExn : Nat → ConfigOutcome := fun i =>
  if i = 2 then ConfigOutcome.otherExn else ConfigOutcome.ok

/-- A remote service that accepts everything: post key present, login POST
succeeds, and every cookie jar counts as logged in. -/
def envHappy : Env := ⟨some "pk", true, [("PHPSESSID", "z")], fun _ => true⟩

/-- A remote service where the login page has no post key and no jar ever
counts as logged in. -/
def envDown : Env := ⟨none, true, [], fun _ => false⟩

/-- Fresh state: empty cookie jar, no cookies file, empty trace. -/
def worldEmpty : World := ⟨[], none, []⟩

/-- Fresh session but a valid stored cookies file. -/
def worldStored : World := ⟨[], some (FileContent.cookies [("PHPSESSID", "1")]), []⟩

end Pikax

namespace Pikax

/-! ## Lemmas about the batch resolver -/

/-- Closed form of the resolver loop when no completion raises a
non-`ArtworkError` exception. -/
theorem processLoop_no_exn (config : Nat → ConfigOutcome) (total : Nat)
    (l : List Nat) :
    ∀ (done : Nat) (successes : List Artwork) (fails : List Nat)
      (progress : List (Nat × Nat)),
      (∀ i ∈ l, config i ≠ ConfigOutcome.otherExn) →
      processLoop config total l done successes fails progress =
        Except.ok
          (successes ++
            (l.filter (fun i => config i = ConfigOutcome.ok)).map Artwork.mk,
           fails ++ l.filter (fun i => config i ≠ ConfigOutcome.ok),
           progress ++ progressTrace done total l.length) := by
  induction l with
  | nil => intro done s f pr _; simp [processLoop, progressTrace]
  | cons j rest ih =>
    intro done s f pr h
    have hj := h j (List.mem_cons_self j rest)
    have hrest : ∀ i ∈ rest, config i ≠ ConfigOutcome.otherExn :=
      fun i hi => h i (List.mem_cons_of_mem j hi)
    cases hc : config j with
    | ok =>
      simp only [processLoop, construct, hc]
      rw [ih (done + 1) (s ++ [Artwork.mk j]) f (pr ++ [(done + 1, total)]) hrest]
      simp [hc, progressTrace, List.filter_cons]
    | artworkError =>
      simp only [processLoop, construct, hc]
      rw [ih (done + 1) s (f ++ [j]) (pr ++ [(done + 1, total)]) hrest]
      simp [hc, progressTrace, List.filter_cons]
    | otherExn => exact absurd hc hj

/-- The resolver loop aborts whenever some pending completion raises a
non-`ArtworkError` exception. -/
theorem processLoop_exn (config : Nat → ConfigOutcome) (total : Nat)
    (l : List Nat) :
    ∀ (done : Nat) (successes : List Artwork) (fails : List Nat)
      (progress : List (Nat × Nat)),
      (∃ i ∈ l, config i = ConfigOutcome.otherExn) →
      processLoop config total l done successes fails progress =
        Except.error () := by
  induction l with
  | nil =>
    rintro _ _ _ _ ⟨i, hi, -⟩
    cases hi
  | cons j rest ih =>
    rintro done s f pr ⟨i, hi, hexn⟩
    cases hc : config j with
    | otherExn => simp [processLoop, construct, hc]
    | ok =>
      simp only [processLoop, construct, hc]
      apply ih
      rcases List.mem_cons.mp hi with h | h
      · rw [h, hc] at hexn; cases hexn
      · exact ⟨i, h, hexn⟩
    | artworkError =>
      simp only [processLoop, construct, hc]
      apply ih
      rcases List.mem_cons.mp hi with h | h
      · rw [h, hc] at hexn; cases hexn
      · exact ⟨i, h, hexn⟩

/-- The progress pairs are a contiguous range of completed counts. -/
theorem progressTrace_eq_range (total : Nat) :
    ∀ (n done : Nat),
      progressTrace done total n =
        (List.range n).map (fun k => (done + k + 1, total)) := by
  intro n
  induction n with
  | zero => intro done; simp [progressTrace]
  | succ n ih =>
    intro done
    rw [progressTrace, ih (done + 1), List.range_succ_eq_map]
    simp only [List.map_cons, List.map_map, List.cons.injEq, Prod.mk.injEq]
    refine ⟨trivial, ?_⟩
    apply List.map_congr_left
    intro k _
    simp only [Function.comp_apply, Prod.mk.injEq, Nat.succ_eq_add_one]
    exact ⟨by omega, trivial⟩

/-- Mapping the stored id back out of the constructed artworks recovers
the filtered id list. -/
theorem map_id_map_mk (l : List Nat) : (l.map Artwork.mk).map Artwork.id = l := by
  induction l with
  | nil => rfl
  | cons a l ih => simp [ih]

/-- C1: for every list of input ids and every constructor whose only
failure mode is `ArtworkError`, the batch resolve
(`BaseIDProcessor._general_processor`) returns, every input id appears
in exactly one of successes (by id) and failures, the two are disjoint,
`len(successes) + len(fails) = len(ids)`, and each duplicate occurrence
in the input is processed once per occurrence (multiset equality of
counts). -/
theorem general_processor_partitions (config : Nat → ConfigOutcome)
    (item_ids completionOrder : List Nat)
    (hperm : completionOrder.Perm item_ids)
    (honly : ∀ i ∈ item_ids, config i ≠ ConfigOutcome.otherExn) :
    ∃ successes fails progress,
      general_processor config item_ids completionOrder =
        Except.ok (successes, fails, progress) ∧
      (successes.map Artwork.id ++ fails).Perm item_ids ∧
      (∀ i ∈ item_ids,
        (i ∈ successes.map Artwork.id ∧ i ∉ fails) ∨
        (i ∈ fails ∧ i ∉ successes.map Artwork.id)) ∧
      successes.length + fails.length = item_ids.length ∧
      (∀ i, (successes.map Artwork.id ++ fails).count i = item_ids.count i) := by
  have honly' : ∀ i ∈ completionOrder, config i ≠ ConfigOutcome.otherExn :=
    fun i hi => honly i (hperm.subset hi)
  have hids :
      ((completionOrder.filter (fun i => config i = ConfigOutcome.ok)).map
        Artwork.mk).map Artwork.id =
      completionOrder.filter (fun i => config i = ConfigOutcome.ok) :=
    map_id_map_mk _
  have hkey :
      (((completionOrder.filter (fun i => config i = ConfigOutcome.ok)).map
          Artwork.mk).map Artwork.id ++
        completionOrder.filter (fun i => config i ≠ ConfigOutcome.ok)).Perm
        item_ids := by
    rw [hids]
    refine List.Perm.trans ?_ hperm
    have h := List.filter_append_perm
      (fun i => decide (config i = ConfigOutcome.ok)) completionOrder
    simpa [ne_eq, decide_not] using h
  refine ⟨(completionOrder.filter (fun i => config i = ConfigOutcome.ok)).map
      Artwork.mk,
    completionOrder.filter (fun i => config i ≠ ConfigOutcome.ok),
    progressTrace 0 item_ids.length completionOrder.length, ?_, ?_, ?_, ?_, ?_⟩
  · rw [general_processor,
      processLoop_no_exn config item_ids.length completionOrder 0 [] [] [] honly']
    simp
  · exact hkey
  · intro i hi
    have hico : i ∈ completionOrder := hperm.mem_iff.mpr hi
    rw [hids]
    by_cases hc : config i = ConfigOutcome.ok
    · left
      refine ⟨List.mem_filter.mpr ⟨hico, by simp [hc]⟩, ?_⟩
      intro hmem
      have h2 := (List.mem_filter.mp hmem).2
      simp [hc] at h2
    · right
      refine ⟨List.mem_filter.mpr ⟨hico, by simp [hc]⟩, ?_⟩
      intro hmem
      have h2 := (List.mem_filter.mp hmem).2
      simp at h2
      exact hc h2
  · have hlen := hkey.length_eq
    simp only [List.length_append, List.length_map] at hlen ⊢
    exact hlen
  · intro i
    exact hkey.count_eq i

/-- Witness for the partition theorem at ids `[1, 2, 3]`, completion
order `[2, 1, 3]`, and a constructor failing exactly on id 2. -/
theorem general_processor_partitions_witness :
    ([2, 1, 3] : List Nat).Perm [1, 2, 3] ∧
    (∀ i ∈ ([1, 2, 3] : List Nat), sampleConfig i ≠ ConfigOutcome.otherExn) ∧
    (∃ successes fails progress,
      general_processor sampleConfig [1, 2, 3] [2, 1, 3] =
        Except.ok (successes, fails, progress) ∧
      (successes.map Artwork.id ++ fails).Perm [1, 2, 3] ∧
      (∀ i ∈ ([1, 2, 3] : List Nat),
        (i ∈ successes.map Artwork.id ∧ i ∉ fails) ∨
        (i ∈ fails ∧ i ∉ successes.map Artwork.id)) ∧
      successes.length + fails.length = ([1, 2, 3] : List Nat).length ∧
      (∀ i, (successes.map Artwork.id ++ fails).count i =
        ([1, 2, 3] : List Nat).count i)) :=
  ⟨by decide, by decide,
    general_processor_partitions sampleConfig [1, 2, 3] [2, 1, 3]
      (by decide) (by decide)⟩

/-- C2: the batch resolve calls the progress reporter exactly `len(ids)`
times, with completed counts `1, 2, ..., len(ids)` in strictly increasing
order, each paired with the total; an empty id list returns immediately
with empty successes and failures and zero progress calls. -/
theorem general_processor_progress (config : Nat → ConfigOutcome)
    (item_ids completionOrder : List Nat)
    (hperm : completionOrder.Perm item_ids)
    (honly : ∀ i ∈ item_ids, config i ≠ ConfigOutcome.otherExn) :
    (∃ successes fails,
      general_processor config item_ids completionOrder =
        Except.ok (successes, fails,
          (List.range item_ids.length).map (fun k => (k + 1, item_ids.length)))) ∧
    (item_ids = [] →
      general_processor config item_ids completionOrder =
        Except.ok ([], [], [])) := by
  have honly' : ∀ i ∈ completionOrder, config i ≠ ConfigOutcome.otherExn :=
    fun i hi => honly i (hperm.subset hi)
  constructor
  · refine ⟨(completionOrder.filter (fun i => config i = ConfigOutcome.ok)).map
        Artwork.mk,
      completionOrder.filter (fun i => config i ≠ ConfigOutcome.ok), ?_⟩
    rw [general_processor,
      processLoop_no_exn config item_ids.length completionOrder 0 [] [] [] honly',
      hperm.length_eq, progressTrace_eq_range]
    simp
  · intro h
    subst h
    have hco : completionOrder = [] := List.Perm.eq_nil hperm
    rw [hco]
    rfl

/-- Witness for the progress theorem at ids `[1, 2, 3]` and completion
order `[2, 1, 3]`. -/
theorem general_processor_progress_witness :
    ([2, 1, 3] : List Nat).Perm [1, 2, 3] ∧
    (∀ i ∈ ([1, 2, 3] : List Nat), sampleConfig i ≠ ConfigOutcome.otherExn) ∧
    ((∃ successes fails,
      general_processor sampleConfig [1, 2, 3] [2, 1, 3] =
        Except.ok (successes, fails,
          (List.range ([1, 2, 3] : List Nat).length).map
            (fun k => (k + 1, ([1, 2, 3] : List Nat).length)))) ∧
    (([1, 2, 3] : List Nat) = [] →
      general_processor sampleConfig [1, 2, 3] [2, 1, 3] =
        Except.ok ([], [], []))) :=
  ⟨by decide, by decide,
    general_processor_progress sampleConfig [1, 2, 3] [2, 1, 3]
      (by decide) (by decide)⟩

/-- C9: only `ArtworkError` from the per-item constructor is caught and
turned into a failures entry; a completion raising any other exception
escapes the per-item handler and aborts the whole batch, so no result
pair is returned. -/
theorem general_processor_exception_aborts (config : Nat → ConfigOutcome)
    (item_ids completionOrder : List Nat)
    (hperm : completionOrder.Perm item_ids) :
    ((∀ i ∈ item_ids, config i ≠ ConfigOutcome.otherExn) →
      ∃ successes progress,
        general_processor config item_ids completionOrder =
          Except.ok (successes,
            completionOrder.filter
              (fun i => config i = ConfigOutcome.artworkError),
            progress)) ∧
    (∀ i ∈ item_ids, config i = ConfigOutcome.otherExn →
      general_processor config item_ids completionOrder =
        Except.error ()) := by
  constructor
  · intro honly
    have honly' : ∀ i ∈ completionOrder, config i ≠ ConfigOutcome.otherExn :=
      fun i hi => honly i (hperm.subset hi)
    refine ⟨(completionOrder.filter (fun i => config i = ConfigOutcome.ok)).map
        Artwork.mk,
      [] ++ progressTrace 0 item_ids.length completionOrder.length, ?_⟩
    rw [general_processor,
      processLoop_no_exn config item_ids.length completionOrder 0 [] [] [] honly']
    have hfe : completionOrder.filter (fun i => config i ≠ ConfigOutcome.ok) =
        completionOrder.filter
          (fun i => config i = ConfigOutcome.artworkError) := by
      apply List.filter_congr
      intro i hi
      cases hc : config i with
      | ok => simp [hc]
      | artworkError => simp [hc]
      | otherExn => exact absurd hc (honly' i hi)
    rw [hfe]
    simp
  · intro i hi hexn
    rw [general_processor]
    exact processLoop_exn config item_ids.length completionOrder 0 [] [] []
      ⟨i, hperm.mem_iff.mpr hi, hexn⟩

/-- Witness for the abort theorem: id 2 raises a non-`ArtworkError`
exception and the whole batch aborts. -/
theorem general_processor_exception_aborts_witness :
    ([3, 1, 2] : List Nat).Perm [1, 2, 3] ∧
    (2 : Nat) ∈ ([1, 2, 3] : List Nat) ∧
    sampleConfigExn 2 = ConfigOutcome.otherExn ∧
    general_processor sampleConfigExn [1, 2, 3] [3, 1, 2] = Except.error () :=
  ⟨by decide, by decide, by decide,
    (general_processor_exception_aborts sampleConfigExn [1, 2, 3] [3, 1, 2]
      (by decide)).2 2 (by decide) (by decide)⟩

/-- C10: `BaseIDProcessor.process` raises `ProcessError` for a
`process_type` failing `ProcessType.is_valid`, but for the gif member —
which passes `is_valid` yet is neither `MANGA` nor `ILLUST` — the
unguarded `type_to_function` lookup raises `KeyError` instead of a
domain error. -/
theorem process_gif_keyerror (p : BaseIDProcessor) (ids : List Nat) :
    process p ids ProcessArg.invalid = ProcessOutcome.processError ∧
    ProcessType.is_valid (ProcessArg.valid ProcessType.gif) = true ∧
    ProcessType.gif ≠ ProcessType.manga ∧
    ProcessType.gif ≠ ProcessType.illust ∧
    process p ids (ProcessArg.valid ProcessType.gif) =
      ProcessOutcome.keyError :=
  ⟨rfl, rfl, by decide, by decide, rfl⟩

/-! ## Lemmas about the login cascade -/

theorem savesGuardedFrom_append (u t : List Event) :
    ∀ (prev : Option Event),
      savesGuardedFrom prev (t ++ u) =
        (savesGuardedFrom prev t && savesGuardedFrom (lastEvent prev t) u) := by
  induction t with
  | nil => intro prev; simp [savesGuardedFrom, lastEvent]
  | cons e rest ih =>
    intro prev
    simp [savesGuardedFrom, lastEvent, ih (some e), Bool.and_assoc]

theorem saveStepOk_of_ne (prev : Option Event) (e : Event)
    (h : e ≠ Event.saveCookies) : saveStepOk prev e = true := by
  simp [saveStepOk, h]

theorem savesGuardedFrom_any_prev (d : List Event)
    (h : savesGuarded d = true) :
    ∀ (prev : Option Event), savesGuardedFrom prev d = true := by
  intro prev
  cases d with
  | nil => simp [savesGuardedFrom]
  | cons e rest =>
    rw [savesGuarded, savesGuardedFrom] at h
    simp only [Bool.and_eq_true] at h
    have he : e ≠ Event.saveCookies := by
      intro hee
      rw [hee] at h
      simp [saveStepOk] at h
    rw [savesGuardedFrom, saveStepOk_of_ne prev e he, h.2]
    rfl

/-- A trace that persists only right after positive verification stays
that way when another such trace is appended. -/
theorem savesGuarded_append (t d : List Event) (ht : savesGuarded t = true)
    (hd : savesGuarded d = true) : savesGuarded (t ++ d) = true := by
  rw [savesGuarded, savesGuardedFrom_append d t none]
  rw [savesGuarded] at ht
  rw [ht, savesGuardedFrom_any_prev d hd (lastEvent none t)]
  rfl

/-- The events `AccountClient._login` appends: the entry marker, then at
most a verification and a save. -/
theorem account_login_trace (env : Env) (w : World) :
    ∃ d, (account_login env w).2.trace = w.trace ++ Event.accountLogin :: d ∧
      ∀ e ∈ d, e = Event.checkIsLogged true ∨ e = Event.checkIsLogged false ∨
        e = Event.saveCookies := by
  cases hpk : env.postkey with
  | none =>
    refine ⟨[], ?_, by simp⟩
    simp [account_login, hpk, logEvent]
  | some pk =>
    by_cases hpost : env.loginPostOk
    · cases hb : env.checkLogged (setCookieList w.sessionCookies env.loginSetCookies) with
      | true =>
        refine ⟨[Event.checkIsLogged true, Event.saveCookies], ?_, by simp⟩
        simp [account_login, hpk, hpost, check_is_logged, save_cookies, logEvent, hb]
      | false =>
        refine ⟨[Event.checkIsLogged false], ?_, by simp⟩
        simp [account_login, hpk, hpost, check_is_logged, logEvent, hb]
    · refine ⟨[], ?_, by simp⟩
      simp [account_login, hpk, hpost, logEvent]

/-- `AccountClient._login` either returns or raises `LoginError`; it never
blocks on user input. -/
theorem account_login_ne_blocked (env : Env) (w : World) :
    (account_login env w).1 ≠ LoginResult.blocked := by
  cases hpk : env.postkey with
  | none => simp [account_login, hpk]
  | some pk =>
    by_cases hpost : env.loginPostOk
    · cases hb : env.checkLogged (setCookieList w.sessionCookies env.loginSetCookies) with
      | true => simp [account_login, hpk, hpost, check_is_logged, logEvent, hb]
      | false => simp [account_login, hpk, hpost, check_is_logged, logEvent, hb]
    · simp [account_login, hpk, hpost]

/-- `AccountClient._login` never lets a non-`LoginError` exception
escape in this model (verification is an oracle call). -/
theorem account_login_ne_exn (env : Env) (w : World) :
    (account_login env w).1 ≠ LoginResult.exn := by
  cases hpk : env.postkey with
  | none => simp [account_login, hpk]
  | some pk =>
    by_cases hpost : env.loginPostOk
    · cases hb : env.checkLogged (setCookieList w.sessionCookies env.loginSetCookies) with
      | true => simp [account_login, hpk, hpost, check_is_logged, logEvent, hb]
      | false => simp [account_login, hpk, hpost, check_is_logged, logEvent, hb]
    · simp [account_login, hpk, hpost]

theorem account_login_guarded (env : Env) (w : World)
    (hg : savesGuarded w.trace = true) :
    savesGuarded (account_login env w).2.trace = true := by
  cases hpk : env.postkey with
  | none =>
    simp only [account_login, hpk, logEvent]
    exact savesGuarded_append _ _ hg (by decide)
  | some pk =>
    by_cases hpost : env.loginPostOk
    · cases hb : env.checkLogged (setCookieList w.sessionCookies env.loginSetCookies) with
      | true =>
        simp only [account_login, hpk, hpost, check_is_logged, save_cookies,
          logEvent, hb, if_true]
        simpa [List.append_assoc] using
          savesGuarded_append w.trace
            [Event.accountLogin, Event.checkIsLogged true, Event.saveCookies]
            hg (by decide)
      | false =>
        simp only [account_login, hpk, hpost, check_is_logged, logEvent, hb]
        simpa [List.append_assoc] using
          savesGuarded_append w.trace
            [Event.accountLogin, Event.checkIsLogged false] hg (by decide)
    · simp only [account_login, hpk, hpost, logEvent, if_false]
      simpa using savesGuarded_append w.trace [Event.accountLogin] hg (by decide)

/-- The events `CookiesClient._local_cookies_login` appends. -/
theorem local_cookies_login_trace (env : Env) (w : World) :
    ∃ d, (local_cookies_login env w).2.trace =
        w.trace ++ Event.localCookiesLogin :: d ∧
      ∀ e ∈ d, e = Event.checkIsLogged true ∨ e = Event.checkIsLogged false ∨
        e = Event.removeFile := by
  cases hf : w.cookiesFile with
  | none =>
    refine ⟨[], ?_, by simp⟩
    simp [local_cookies_login, hf, logEvent]
  | some fc =>
    cases fc with
    | garbage =>
      refine ⟨[Event.removeFile], ?_, by simp⟩
      simp [local_cookies_login, hf, logEvent]
    | garbageOther =>
      refine ⟨[], ?_, by simp⟩
      simp [local_cookies_login, hf, logEvent]
    | cookies cs =>
      cases hb : env.checkLogged cs with
      | true =>
        refine ⟨[Event.checkIsLogged true], ?_, by simp⟩
        simp [local_cookies_login, hf, check_is_logged, logEvent, hb]
      | false =>
        refine ⟨[Event.checkIsLogged false, Event.removeFile], ?_, by simp⟩
        simp [local_cookies_login, hf, check_is_logged, logEvent, hb]

theorem local_cookies_login_guarded (env : Env) (w : World)
    (hg : savesGuarded w.trace = true) :
    savesGuarded (local_cookies_login env w).2.trace = true := by
  cases hf : w.cookiesFile with
  | none =>
    simp only [local_cookies_login, hf, logEvent]
    exact savesGuarded_append _ _ hg (by decide)
  | some fc =>
    cases fc with
    | garbage =>
      simp only [local_cookies_login, hf, logEvent]
      simpa [List.append_assoc] using
        savesGuarded_append w.trace [Event.localCookiesLogin, Event.removeFile]
          hg (by decide)
    | garbageOther =>
      simp only [local_cookies_login, hf, logEvent]
      exact savesGuarded_append _ _ hg (by decide)
    | cookies cs =>
      cases hb : env.checkLogged cs with
      | true =>
        simp only [local_cookies_login, hf, check_is_logged, logEvent, hb, if_true]
        simpa [List.append_assoc] using
          savesGuarded_append w.trace
            [Event.localCookiesLogin, Event.checkIsLogged true] hg (by decide)
      | false =>
        simp only [local_cookies_login, hf, check_is_logged, logEvent, hb]
        simpa [List.append_assoc] using
          savesGuarded_append w.trace
            [Event.localCookiesLogin, Event.checkIsLogged false, Event.removeFile]
            hg (by decide)

/-- The world `check_is_logged` returns: same state, one more event. -/
theorem check_is_logged_eq (env : Env) (w : World) (b : Bool) (w2 : World)
    (h : check_is_logged env w = (b, w2)) :
    env.checkLogged w.sessionCookies = b ∧
      w2.trace = w.trace ++ [Event.checkIsLogged b] := by
  have h1 := congrArg Prod.fst h
  have h2 := congrArg Prod.snd h
  simp only [check_is_logged, logEvent] at h1 h2
  refine ⟨h1, ?_⟩
  rw [← h2, h1]

/-- The prompt loop only appends verification and save events. -/
theorem user_cookies_loop_trace (env : Env) :
    ∀ (inputs : List String) (w : World),
      ∃ d, (user_cookies_loop env inputs w).2.trace = w.trace ++ d ∧
        ∀ e ∈ d, e = Event.checkIsLogged true ∨ e = Event.checkIsLogged false ∨
          e = Event.saveCookies := by
  intro inputs w
  induction inputs, w using user_cookies_loop.induct env with
  | case1 w =>
    refine ⟨[], ?_, by simp⟩
    rw [user_cookies_loop.eq_def]
    simp
  | case2 answer rest w h =>
    refine ⟨[], ?_, by simp⟩
    rw [user_cookies_loop.eq_def]
    simp [h]
  | case3 answer rest w hn hy ih =>
    obtain ⟨d, hd, hmem⟩ := ih
    refine ⟨d, ?_, hmem⟩
    rw [user_cookies_loop.eq_def]
    simpa [hn, hy] using hd
  | case4 answer w hn hy =>
    refine ⟨[], ?_, by simp⟩
    rw [user_cookies_loop.eq_def]
    simp [hn, hy]
  | case5 answer w hn hy cookieStr rest2 cs hq w2 hcheck =>
    refine ⟨[Event.checkIsLogged true, Event.saveCookies], ?_, by simp⟩
    have hw2 := (check_is_logged_eq env _ _ _ hcheck).2
    rw [user_cookies_loop.eq_def]
    simp [hn, hy, hq, hcheck, save_cookies, hw2]
  | case6 answer w hn hy cookieStr rest2 cs hq w2 hcheck ih =>
    obtain ⟨d, hd, hmem⟩ := ih
    refine ⟨Event.checkIsLogged false :: d, ?_, ?_⟩
    · have hw2 := (check_is_logged_eq env _ _ _ hcheck).2
      rw [user_cookies_loop.eq_def]
      simp [hn, hy, hq, hcheck, hd, hw2]
    · intro e he
      rcases List.mem_cons.mp he with h | h
      · exact Or.inr (Or.inl h)
      · exact hmem e h
  | case7 answer w hn hy cookieStr rest2 cs hq ih =>
    obtain ⟨d, hd, hmem⟩ := ih
    refine ⟨d, ?_, hmem⟩
    rw [user_cookies_loop.eq_def]
    simpa [hn, hy, hq] using hd

theorem user_cookies_loop_guarded (env : Env) :
    ∀ (inputs : List String) (w : World),
      savesGuarded w.trace = true →
      savesGuarded (user_cookies_loop env inputs w).2.trace = true := by
  intro inputs w
  induction inputs, w using user_cookies_loop.induct env with
  | case1 w =>
    intro hg
    rw [user_cookies_loop.eq_def]
    simpa using hg
  | case2 answer rest w h =>
    intro hg
    rw [user_cookies_loop.eq_def]
    simpa [h] using hg
  | case3 answer rest w hn hy ih =>
    intro hg
    rw [user_cookies_loop.eq_def]
    simpa [hn, hy] using ih hg
  | case4 answer w hn hy =>
    intro hg
    rw [user_cookies_loop.eq_def]
    simpa [hn, hy] using hg
  | case5 answer w hn hy cookieStr rest2 cs hq w2 hcheck =>
    intro hg
    have hw2 := (check_is_logged_eq env _ _ _ hcheck).2
    rw [user_cookies_loop.eq_def]
    simp only [hn, hy, hq, hcheck]
    simp [save_cookies, hw2]
    simpa [List.append_assoc] using
      savesGuarded_append w.trace
        [Event.checkIsLogged true, Event.saveCookies] hg (by decide)
  | case6 answer w hn hy cookieStr rest2 cs hq w2 hcheck ih =>
    intro hg
    have hw2 := (check_is_logged_eq env _ _ _ hcheck).2
    rw [user_cookies_loop.eq_def]
    simp only [hn, hy, hq, hcheck]
    refine ih ?_
    rw [hw2]
    exact savesGuarded_append _ _ hg (by decide)
  | case7 answer w hn hy cookieStr rest2 cs hq ih =>
    intro hg
    rw [user_cookies_loop.eq_def]
    simp only [hn, hy, hq]
    exact ih (by simpa using hg)

/-- `CookiesClient._user_cookies_login` appends the prompt marker and then
only verification and save events. -/
theorem user_cookies_login_trace (env : Env) (inputs : List String) (w : World) :
    ∃ d, (user_cookies_login env inputs w).2.trace =
        w.trace ++ Event.userCookiesLogin :: d ∧
      ∀ e ∈ d, e = Event.checkIsLogged true ∨ e = Event.checkIsLogged false ∨
        e = Event.saveCookies := by
  obtain ⟨d, hd, hmem⟩ :=
    user_cookies_loop_trace env inputs (logEvent Event.userCookiesLogin w)
  refine ⟨d, ?_, hmem⟩
  rw [user_cookies_login, hd]
  simp [logEvent]

theorem user_cookies_login_guarded (env : Env) (inputs : List String)
    (w : World) (hg : savesGuarded w.trace = true) :
    savesGuarded (user_cookies_login env inputs w).2.trace = true := by
  rw [user_cookies_login]
  refine user_cookies_loop_guarded env inputs _ ?_
  simpa [logEvent] using
    savesGuarded_append w.trace [Event.userCookiesLogin] hg (by decide)

/-- `CookiesClient._login` returns the inner world untouched: when the
local strategy succeeds its world is the result. -/
theorem cookies_login_of_local_ok (env : Env) (inputs : List String)
    (w w1 : World)
    (hl : local_cookies_login env (logEvent Event.cookiesLogin w) =
      (LoginResult.ok, w1)) :
    cookies_login env inputs w = (LoginResult.ok, w1) := by
  simp [cookies_login, hl]

theorem cookies_login_guarded (env : Env) (inputs : List String) (w : World)
    (hg : savesGuarded w.trace = true) :
    savesGuarded (cookies_login env inputs w).2.trace = true := by
  have hg1 : savesGuarded (logEvent Event.cookiesLogin w).trace = true := by
    simpa [logEvent] using
      savesGuarded_append w.trace [Event.cookiesLogin] hg (by decide)
  rcases hl : local_cookies_login env (logEvent Event.cookiesLogin w) with ⟨r1, w1⟩
  have hgw1 : savesGuarded w1.trace = true := by
    have h := local_cookies_login_guarded env (logEvent Event.cookiesLogin w) hg1
    rwa [hl] at h
  cases r1 with
  | ok => simpa [cookies_login, hl] using hgw1
  | blocked => simpa [cookies_login, hl] using hgw1
  | exn => simpa [cookies_login, hl] using hgw1
  | err m =>
    rcases hu : user_cookies_login env inputs w1 with ⟨r2, w2⟩
    have hgw2 : savesGuarded w2.trace = true := by
      have h := user_cookies_login_guarded env inputs w1 hgw1
      rwa [hu] at h
    cases r2 with
    | ok => simpa [cookies_login, hl, hu] using hgw2
    | blocked => simpa [cookies_login, hl, hu] using hgw2
    | exn => simpa [cookies_login, hl, hu] using hgw2
    | err m2 => simpa [cookies_login, hl, hu] using hgw2

theorem web_init_of_account_ok (env : Env) (inputs : List String)
    (w w1 : World) (ha : account_login env w = (LoginResult.ok, w1)) :
    web_api_client_init env inputs w = (LoginResult.ok, w1) := by
  simp [web_api_client_init, ha]

theorem web_init_snd_of_account_err (env : Env) (inputs : List String)
    (w w1 : World) (m : String)
    (ha : account_login env w = (LoginResult.err m, w1)) :
    (web_api_client_init env inputs w).2 = (cookies_login env inputs w1).2 := by
  rcases hc : cookies_login env inputs w1 with ⟨r2, w2⟩
  cases r2 <;> simp [web_api_client_init, ha, hc]

theorem web_init_guarded (env : Env) (inputs : List String) (w : World)
    (hg : savesGuarded w.trace = true) :
    savesGuarded (web_api_client_init env inputs w).2.trace = true := by
  rcases ha : account_login env w with ⟨r1, w1⟩
  have hgw1 : savesGuarded w1.trace = true := by
    have h := account_login_guarded env w hg
    rwa [ha] at h
  cases r1 with
  | ok => simpa [web_api_client_init, ha] using hgw1
  | blocked => simpa [web_api_client_init, ha] using hgw1
  | exn => simpa [web_api_client_init, ha] using hgw1
  | err m =>
    rcases hc : cookies_login env inputs w1 with ⟨r2, w2⟩
    have hgw2 : savesGuarded w2.trace = true := by
      have h := cookies_login_guarded env inputs w1 hgw1
      rwa [hc] at h
    cases r2 with
    | ok => simpa [web_api_client_init, ha, hc] using hgw2
    | blocked => simpa [web_api_client_init, ha, hc] using hgw2
    | exn => simpa [web_api_client_init, ha, hc] using hgw2
    | err m2 => simpa [web_api_client_init, ha, hc] using hgw2

/-- `CookiesClient._login` always appends its entry marker first. -/
theorem cookies_login_trace (env : Env) (inputs : List String) (w : World) :
    ∃ d, (cookies_login env inputs w).2.trace =
      w.trace ++ Event.cookiesLogin :: d := by
  rcases hl : local_cookies_login env (logEvent Event.cookiesLogin w) with ⟨r1, w1⟩
  obtain ⟨d1, hd1, -⟩ :=
    local_cookies_login_trace env (logEvent Event.cookiesLogin w)
  rw [hl] at hd1
  cases r1 with
  | ok =>
    refine ⟨Event.localCookiesLogin :: d1, ?_⟩
    rw [show (cookies_login env inputs w).2 = w1 by simp [cookies_login, hl]]
    rw [hd1]
    simp [logEvent]
  | blocked =>
    refine ⟨Event.localCookiesLogin :: d1, ?_⟩
    rw [show (cookies_login env inputs w).2 = w1 by simp [cookies_login, hl]]
    rw [hd1]
    simp [logEvent]
  | exn =>
    refine ⟨Event.localCookiesLogin :: d1, ?_⟩
    rw [show (cookies_login env inputs w).2 = w1 by simp [cookies_login, hl]]
    rw [hd1]
    simp [logEvent]
  | err m =>
    rcases hu : user_cookies_login env inputs w1 with ⟨r2, w2⟩
    obtain ⟨d2, hd2, -⟩ := user_cookies_login_trace env inputs w1
    rw [hu] at hd2
    have hsnd : (cookies_login env inputs w).2 = w2 := by
      cases r2 <;> simp [cookies_login, hl, hu]
    refine ⟨Event.localCookiesLogin :: d1 ++ Event.userCookiesLogin :: d2, ?_⟩
    rw [hsnd, hd2, hd1]
    simp [logEvent]

/-- C3: the authentication cascade short-circuits on first success: when
`AccountClient._login` succeeds, `CookiesClient._login` (and both cookies
strategies inside it) is never invoked; and inside `CookiesClient._login`
a successful `_local_cookies_login` means `_user_cookies_login` is never
invoked. -/
theorem first_success_short_circuits (env : Env) (inputs : List String)
    (cs : Cookies) (file : Option FileContent) :
    ((account_login env ⟨cs, file, []⟩).1 = LoginResult.ok →
      Event.cookiesLogin ∉
        (web_api_client_init env inputs ⟨cs, file, []⟩).2.trace ∧
      Event.localCookiesLogin ∉
        (web_api_client_init env inputs ⟨cs, file, []⟩).2.trace ∧
      Event.userCookiesLogin ∉
        (web_api_client_init env inputs ⟨cs, file, []⟩).2.trace) ∧
    ((local_cookies_login env
        (logEvent Event.cookiesLogin ⟨cs, file, []⟩)).1 = LoginResult.ok →
      Event.userCookiesLogin ∉
        (cookies_login env inputs ⟨cs, file, []⟩).2.trace) := by
  constructor
  · intro hok
    rcases ha : account_login env ⟨cs, file, []⟩ with ⟨r1, w1⟩
    rw [ha] at hok
    simp only at hok
    subst hok
    rw [web_init_of_account_ok env inputs _ w1 ha]
    obtain ⟨d, hd, hmem⟩ := account_login_trace env ⟨cs, file, []⟩
    rw [ha] at hd
    have notin : ∀ e : Event, e ≠ Event.accountLogin →
        e ≠ Event.checkIsLogged true → e ≠ Event.checkIsLogged false →
        e ≠ Event.saveCookies → e ∉ w1.trace := by
      intro e h1 h2 h3 h4 hmem'
      rw [hd] at hmem'
      simp only [List.nil_append, List.mem_cons] at hmem'
      rcases hmem' with h | h
      · exact h1 h
      · rcases hmem e h with h' | h' | h'
        · exact h2 h'
        · exact h3 h'
        · exact h4 h'
    exact ⟨notin _ (by decide) (by decide) (by decide) (by decide),
      notin _ (by decide) (by decide) (by decide) (by decide),
      notin _ (by decide) (by decide) (by decide) (by decide)⟩
  · intro hok
    rcases hl : local_cookies_login env (logEvent Event.cookiesLogin ⟨cs, file, []⟩)
      with ⟨r1, w1⟩
    rw [hl] at hok
    simp only at hok
    subst hok
    rw [cookies_login_of_local_ok env inputs _ w1 hl]
    obtain ⟨d, hd, hmem⟩ :=
      local_cookies_login_trace env (logEvent Event.cookiesLogin ⟨cs, file, []⟩)
    rw [hl] at hd
    intro hmem'
    rw [hd] at hmem'
    simp only [logEvent, List.nil_append, List.cons_append, List.mem_cons,
      List.mem_append, List.mem_singleton] at hmem'
    rcases hmem' with h | h | h
    · cases h
    · cases h
    · rcases hmem _ h with h' | h' | h' <;> cases h'

/-- Witness for the short-circuit theorem: a reachable account login and a
reachable local-cookies login. -/
theorem first_success_short_circuits_witness :
    (account_login envHappy worldStored).1 = LoginResult.ok ∧
    (local_cookies_login envHappy
      (logEvent Event.cookiesLogin worldStored)).1 = LoginResult.ok ∧
    Event.cookiesLogin ∉
      (web_api_client_init envHappy [] worldStored).2.trace ∧
    Event.userCookiesLogin ∉
      (cookies_login envHappy [] worldStored).2.trace := by
  refine ⟨rfl, rfl, ?_, ?_⟩
  · exact ((first_success_short_circuits envHappy [] []
      (some (FileContent.cookies [("PHPSESSID", "1")]))).1 rfl).1
  · exact (first_success_short_circuits envHappy [] []
      (some (FileContent.cookies [("PHPSESSID", "1")]))).2 rfl

/-- C5 counterexample: garbage bytes on which `pickle.load` raises an
exception other than `UnpicklingError` (e.g. `EOFError` from an empty or
truncated file) escape `_local_cookies_login` uncaught: no `LoginError`
is raised and the file is left in place, refuting the claim as stated
for arbitrary undeserializable contents. -/
theorem corrupted_cookies_counterexample :
    local_cookies_login envDown ⟨[], some FileContent.garbageOther, []⟩ =
      (LoginResult.exn,
        ⟨[], some FileContent.garbageOther, [Event.localCookiesLogin]⟩) ∧
    (local_cookies_login envDown
        ⟨[], some FileContent.garbageOther, []⟩).2.cookiesFile ≠ none :=
  ⟨rfl, by decide⟩

/-- C5 (amended): a cookies file whose contents raise
`pickle.UnpicklingError` on deserialization makes the stored strategy
raise `LoginError('Login with cookies failed')`, delete the file as a
side effect, and a subsequent attempt reports the file as not found; but
a file whose deserialization raises any other exception (e.g. `EOFError`
for an empty or truncated file) escapes the strategy uncaught, with the
file left in place. -/
theorem corrupted_cookies_self_heal (env : Env) (cs : Cookies)
    (t : List Event) :
    local_cookies_login env ⟨cs, some FileContent.garbage, t⟩ =
      (LoginResult.err "Login with cookies failed",
        ⟨cs, none, t ++ [Event.localCookiesLogin, Event.removeFile]⟩) ∧
    (local_cookies_login env ⟨cs, some FileContent.garbage, t⟩).2.cookiesFile =
      none ∧
    (local_cookies_login env
        (local_cookies_login env ⟨cs, some FileContent.garbage, t⟩).2).1 =
      LoginResult.err "Local Cookies file not found" ∧
    local_cookies_login env ⟨cs, some FileContent.garbageOther, t⟩ =
      (LoginResult.exn,
        ⟨cs, some FileContent.garbageOther,
          t ++ [Event.localCookiesLogin]⟩) := by
  refine ⟨?_, ?_, ?_, ?_⟩
  · simp [local_cookies_login, logEvent]
  · simp [local_cookies_login, logEvent]
  · simp [local_cookies_login, logEvent]
  · simp [local_cookies_login, logEvent]

/-- C4 counterexample: parsing `"a=1;bad"` in `_change_to_new_cookies`
raises the invalid-input `LoginError`, but it does not leave the session
cookies that existed before the call unchanged: the prior cookie
`old=x` is cleared first and the partial entry `a=1` is left in the
jar. -/
theorem cookie_parse_counterexample :
    (change_to_new_cookies "a=1;bad" [("old", "x")]).2 = false ∧
    (change_to_new_cookies "a=1;bad" [("old", "x")]).1 = [("a", "1")] ∧
    (change_to_new_cookies "a=1;bad" [("old", "x")]).1 ≠ [("old", "x")] :=
  ⟨rfl, rfl, by decide⟩

/-- C4 (amended): parsing `"a=1;b=2"` yields exactly the entries `a=1`
and `b=2`; parsing `"a=1;bad"` fails the whole parse with the
invalid-input `LoginError` — but the pre-existing session cookies are
cleared before parsing and the entries preceding the malformed piece
remain set, so the jar ends as `{a: 1}` rather than being restored; in
the prompt loop the failure is caught and the user is re-prompted. -/
theorem cookie_parse_amended (session : Cookies) (env : Env)
    (file : Option FileContent) :
    change_to_new_cookies "a=1;b=2" session =
      ([("a", "1"), ("b", "2")], true) ∧
    change_to_new_cookies "a=1;bad" session = ([("a", "1")], false) ∧
    user_cookies_login env ["y", "a=1;bad", "n"] ⟨session, file, []⟩ =
      (LoginResult.err "Failed login with user cookies",
        ⟨[("a", "1")], file, [Event.userCookiesLogin]⟩) :=
  ⟨rfl, rfl, rfl⟩

/-- C6: in every strategy, `_save_cookies` runs only immediately after a
`_check_is_logged` round trip that returned true: every trace of the full
login cascade satisfies `savesGuarded`, so a session is never persisted
without having been accepted by the remote service. -/
theorem save_only_after_verification (env : Env) (inputs : List String)
    (cs : Cookies) (file : Option FileContent) :
    savesGuarded (web_api_client_init env inputs ⟨cs, file, []⟩).2.trace =
      true :=
  web_init_guarded env inputs ⟨cs, file, []⟩ rfl

/-- C7: when every strategy fails, `WebAPIClient.__init__` raises exactly
the composite `LoginError('Web client login failed')`; moreover this is
the only `LoginError` message the orchestrating layer itself ever
raises. -/
theorem cascade_exhaustion_composite (env : Env) (inputs : List String)
    (w : World) :
    (∀ m, (web_api_client_init env inputs w).1 = LoginResult.err m →
      m = "Web client login failed") ∧
    (∀ m₁ m₂ w1, account_login env w = (LoginResult.err m₁, w1) →
      (cookies_login env inputs w1).1 = LoginResult.err m₂ →
      (web_api_client_init env inputs w).1 =
        LoginResult.err "Web client login failed") := by
  constructor
  · intro m h
    rcases ha : account_login env w with ⟨r1, w1⟩
    cases r1 with
    | ok => simp [web_api_client_init, ha] at h
    | blocked => simp [web_api_client_init, ha] at h
    | exn => simp [web_api_client_init, ha] at h
    | err m1 =>
      rcases hc : cookies_login env inputs w1 with ⟨r2, w2⟩
      cases r2 with
      | ok => simp [web_api_client_init, ha, hc] at h
      | blocked => simp [web_api_client_init, ha, hc] at h
      | exn => simp [web_api_client_init, ha, hc] at h
      | err m2 =>
        simp [web_api_client_init, ha, hc] at h
        exact h.symm
  · intro m₁ m₂ w1 ha hc2
    rcases hc : cookies_login env inputs w1 with ⟨r2, w2⟩
    rw [hc] at hc2
    simp only at hc2
    subst hc2
    simp [web_api_client_init, ha, hc]

/-- Witness for the cascade-exhaustion theorem: post key absent and the
user declines the prompt, so every strategy fails. -/
theorem cascade_exhaustion_composite_witness :
    account_login envDown worldEmpty =
      (LoginResult.err "Failed to find post key",
        ⟨[], none, [Event.accountLogin]⟩) ∧
    (cookies_login envDown ["n"] ⟨[], none, [Event.accountLogin]⟩).1 =
      LoginResult.err "Cookies Login failed" ∧
    (web_api_client_init envDown ["n"] worldEmpty).1 =
      LoginResult.err "Web client login failed" :=
  ⟨rfl, rfl,
    (cascade_exhaustion_composite envDown ["n"] worldEmpty).2
      "Failed to find post key" "Cookies Login failed"
      ⟨[], none, [Event.accountLogin]⟩ rfl rfl⟩

/-- C8 counterexample: even in a state where the stored-cookies strategy
would succeed, `WebAPIClient.__init__` runs the hard-coded account
strategy first and the cookies strategy never runs — there is no
caller-supplied strategy order. -/
theorem strategy_order_counterexample :
    (web_api_client_init envHappy [] worldStored).2.trace =
      [Event.accountLogin, Event.checkIsLogged true, Event.saveCookies] ∧
    Event.cookiesLogin ∉
      (web_api_client_init envHappy [] worldStored).2.trace ∧
    (local_cookies_login envHappy
      (logEvent Event.cookiesLogin worldStored)).1 = LoginResult.ok :=
  ⟨rfl, by decide, rfl⟩

/-- C8 (amended): the strategy order is hard-coded, not caller-supplied:
on every run the first strategy invoked is `AccountClient._login`, and
`CookiesClient._login` is invoked exactly when the account strategy
fails. -/
theorem strategy_order_hard_coded (env : Env) (inputs : List String)
    (cs : Cookies) (file : Option FileContent) :
    (web_api_client_init env inputs ⟨cs, file, []⟩).2.trace.head? =
      some Event.accountLogin ∧
    (Event.cookiesLogin ∈
        (web_api_client_init env inputs ⟨cs, file, []⟩).2.trace ↔
      (account_login env ⟨cs, file, []⟩).1 ≠ LoginResult.ok) := by
  rcases ha : account_login env ⟨cs, file, []⟩ with ⟨r1, w1⟩
  obtain ⟨d, hd, hmem⟩ := account_login_trace env ⟨cs, file, []⟩
  rw [ha] at hd
  simp only [List.nil_append] at hd
  cases r1 with
  | ok =>
    rw [web_init_of_account_ok env inputs _ w1 ha]
    refine ⟨by rw [hd]; rfl, ?_⟩
    simp only [ne_eq, not_true_eq_false, iff_false]
    intro hmem'
    rw [hd] at hmem'
    simp only [List.mem_cons] at hmem'
    rcases hmem' with h | h
    · cases h
    · rcases hmem _ h with h' | h' | h' <;> cases h'
  | blocked => exact absurd (by rw [ha]) (account_login_ne_blocked env ⟨cs, file, []⟩)
  | exn => exact absurd (by rw [ha]) (account_login_ne_exn env ⟨cs, file, []⟩)
  | err m =>
    have hsnd := web_init_snd_of_account_err env inputs _ w1 m ha
    obtain ⟨d2, hd2⟩ := cookies_login_trace env inputs w1
    rw [hsnd, hd2, hd]
    constructor
    · rfl
    · simp

end Pikax
